import Mathlib

/-!
Verification development for the Cloudflare Pages deployment client
(`lib/cloudflare.py`).  The Python source is shallowly embedded: pure
computations become Lean functions, the dictionary-based data flow is
modelled with association lists that mirror Python `dict` insertion /
overwrite semantics, exceptions become `Except`, and the side effects
that matter to the properties (opened and closed file handles, issued
HTTP requests) are made explicit in returned traces.  Remote behaviour
(HTTP responses, deployment stages, filesystem contents) enters as
explicit parameters.
-/

/-! ## Content-type classification (`_prepare_files`, lines 237-269) -/

/-- The fixed extension → content-type table from `_prepare_files`. -/
def content_types : List (String × String) :=
  [(".html", "text/html"),
   (".css", "text/css"),
   (".js", "application/javascript"),
   (".json", "application/json"),
   (".png", "image/png"),
   (".jpg", "image/jpeg"),
   (".jpeg", "image/jpeg"),
   (".gif", "image/gif"),
   (".svg", "image/svg+xml"),
   (".ico", "image/x-icon"),
   (".txt", "text/plain"),
   (".md", "text/markdown"),
   (".pdf", "application/pdf"),
   (".woff", "font/woff"),
   (".woff2", "font/woff2"),
   (".ttf", "font/ttf"),
   (".eot", "application/vnd.ms-fontobject"),
   (".otf", "font/otf"),
   (".xml", "application/xml")]

/-- Default content type used for unknown extensions. -/
def default_content_type : String := "application/octet-stream"

/-- Python `dict.get(key, default)` on a string-keyed table. -/
def dictGetD (d : List (String × String)) (k : String) (dflt : String) : String :=
  match d.find? (fun p => p.1 = k) with
  | some p => p.2
  | none => dflt

/-- Index of the last occurrence of `c` in the character list, if any
(Python `str.rfind`, restricted to a found/not-found answer with index). -/
def lastIndexOf : List Char → Char → Option Nat
  | [], _ => none
  | x :: xs, c =>
    match lastIndexOf xs c with
    | some i => some (i + 1)
    | none => if x = c then some 0 else none

/-- Embeds `pathlib.PurePath.suffix` applied to a path's final component
`name`: the substring from the last dot onward, provided that dot is
neither the first nor the last character; otherwise the empty string. -/
def pySuffix (name : String) : String :=
  match lastIndexOf name.data '.' with
  | some i => if 0 < i ∧ i + 1 < name.data.length then String.mk (name.data.drop i) else ""
  | none => ""

/-- Character-wise lowercase, embedding Python `str.lower()` (the
extensions involved are ASCII, where the two agree). -/
def strLower (s : String) : String := String.mk (s.data.map Char.toLower)

/-- Content-type classification from `_prepare_files`:
`content_types.get(file_path.suffix.lower(), default_content_type)`. -/
def content_type_of (name : String) : String :=
  dictGetD content_types (strLower (pySuffix name)) default_content_type

example : content_type_of "IMAGE.PNG" = "image/png" := by decide
example : content_type_of "image.png" = "image/png" := by decide
example : content_type_of "file.xyz" = "application/octet-stream" := by decide
example : content_type_of "archive.tar.gz" = "application/octet-stream" := by decide
example : pySuffix ".gitignore" = "" := by decide

/-! ## API transport (`_make_request`, lines 41-82) -/

/-- One entry of the `errors` list of a parsed API response body; the
`message` field may be absent. -/
structure ApiErrEntry where
  message : Option String
deriving DecidableEq

/-- The parts of a parsed API response body that `_make_request`
inspects: the boolean `success` field and the `errors` list, either of
which may be absent. -/
structure ApiBody where
  success : Option Bool
  errors : Option (List ApiErrEntry)
deriving DecidableEq

/-- An HTTP response as seen by `_make_request`: either a body that
parses as JSON, or raw text that does not. -/
inductive HttpResp where
  | body (b : ApiBody)
  | unparseable (text : String)
deriving DecidableEq

/-- The error string `_make_request` builds from the `errors` list:
`"; ".join(error.get("message", "Unknown error") for error in errors)`. -/
def joinedErrors (b : ApiBody) : String :=
  String.intercalate "; " ((b.errors.getD []).map (fun e => e.message.getD "Unknown error"))

/-- Embeds the response handling of `_make_request` (lines 72-82): a
JSON decode failure raises `Invalid JSON response: <text>`; a parsed
body whose `success` field is not truthy raises `API request failed:`
followed by the joined error messages; otherwise the body is returned. -/
def make_request (resp : HttpResp) : Except String ApiBody :=
  match resp with
  | .unparseable t => .error ("Invalid JSON response: " ++ t)
  | .body b =>
    if !(b.success.getD false) then
      .error ("API request failed: " ++ joinedErrors b)
    else
      .ok b

example : make_request (.body ⟨some false, some [⟨some "A"⟩, ⟨none⟩, ⟨some "B"⟩]⟩)
    = .error "API request failed: A; Unknown error; B" := rfl
example : make_request (.unparseable "<html>") = .error "Invalid JSON response: <html>" := rfl
example : make_request (.body ⟨some true, none⟩) = .ok ⟨some true, none⟩ := rfl

/-! ## Status polling (`wait_for_deployment`, lines 299-327)

Time is modelled discretely: the loop condition `time.time() - start_time
< timeout` is checked at the start of each iteration, each iteration
polls once and then sleeps `interval` seconds, and polls themselves are
instantaneous, so the `k`-th poll happens at elapsed time `k * interval`.
The sequence of remote-reported statuses enters as a function from the
poll index. -/

/-- The parts of a deployment status dictionary that
`wait_for_deployment` inspects; either field may be absent. -/
structure DeployStatus where
  stage : Option String
  error_message : Option String
deriving DecidableEq

/-- Embeds `status.get("stage", "")`. -/
def stageOf (s : DeployStatus) : String := s.stage.getD ""

/-- Outcome of `wait_for_deployment`: a returned status or a raised
`CloudflareAPIError` message. -/
inductive WaitResult where
  | ok (status : DeployStatus)
  | apiError (msg : String)
deriving DecidableEq

/-- The timeout error message (line 327). -/
def timeoutMsg (timeout : Nat) : String :=
  "Deployment timed out after " ++ toString timeout ++ " seconds"

/-- The failure error message (line 323):
`Deployment {stage}: {status.get("error_message", "Unknown error")}`. -/
def deployFailMsg (s : DeployStatus) : String :=
  "Deployment " ++ stageOf s ++ ": " ++ s.error_message.getD "Unknown error"

/-- The polling loop of `wait_for_deployment`.  `k` is the number of
polls already made (so the current elapsed time is `k * interval`);
`fuel` bounds the recursion.  When `fuel` runs out the loop reports the
timeout it would report anyway — callers supply enough fuel (for a
positive `interval`, `timeout + 1` polls always suffice) so the branch
coincides with the exhausted loop condition.  Returns the outcome
together with the elapsed time at exit. -/
def waitLoop (poll : Nat → DeployStatus) (timeout interval : Nat) :
    Nat → Nat → WaitResult × Nat
  | 0, k => (.apiError (timeoutMsg timeout), k * interval)
  | fuel + 1, k =>
    if k * interval < timeout then
      let status := poll k
      if stageOf status = "success" then
        (.ok status, k * interval)
      else if stageOf status = "failed" ∨ stageOf status = "canceled" then
        (.apiError (deployFailMsg status), k * interval)
      else
        waitLoop poll timeout interval fuel (k + 1)
    else
      (.apiError (timeoutMsg timeout), k * interval)

/-- Embeds `wait_for_deployment` (defaults: `timeout = 300`, `interval = 5`). -/
def wait_for_deployment (poll : Nat → DeployStatus) (timeout interval : Nat) :
    WaitResult × Nat :=
  waitLoop poll timeout interval (timeout + 1) 0

/-- A stage is terminal when it is `success`, `failed` or `canceled`. -/
def terminalStage (s : DeployStatus) : Prop :=
  stageOf s = "success" ∨ stageOf s = "failed" ∨ stageOf s = "canceled"

instance (s : DeployStatus) : Decidable (terminalStage s) := by
  unfold terminalStage; infer_instance

example :
    wait_for_deployment
      (fun k => if k = 0 then ⟨some "queued", none⟩
                else if k = 1 then ⟨some "building", none⟩
                else ⟨some "success", none⟩) 300 5
    = (.ok ⟨some "success", none⟩, 10) := by decide

example :
    wait_for_deployment
      (fun k => if k = 0 then ⟨some "queued", none⟩ else ⟨some "failed", some "boom"⟩) 300 5
    = (.apiError "Deployment failed: boom", 5) := rfl

example :
    wait_for_deployment (fun _ => ⟨some "building", none⟩) 12 5
    = (.apiError "Deployment timed out after 12 seconds", 15) := rfl

/-- Case analysis on the polling loop: starting at poll index `k` with
enough fuel, the loop either returns the first observed `success`
status, raises on the first observed `failed`/`canceled` status, or —
when no poll made before the deadline observes a terminal stage — takes
the timeout exit at an elapsed time between `timeout` and
`timeout + interval`. -/
theorem waitLoop_cases (poll : Nat → DeployStatus) (timeout interval : Nat) :
    ∀ fuel k, timeout ≤ (k + fuel) * interval → k * interval < timeout + interval →
    (∃ j, k ≤ j ∧ j * interval < timeout ∧
       (∀ i, k ≤ i → i < j → ¬ terminalStage (poll i)) ∧
       stageOf (poll j) = "success" ∧
       waitLoop poll timeout interval fuel k = (.ok (poll j), j * interval)) ∨
    (∃ j, k ≤ j ∧ j * interval < timeout ∧
       (∀ i, k ≤ i → i < j → ¬ terminalStage (poll i)) ∧
       (stageOf (poll j) = "failed" ∨ stageOf (poll j) = "canceled") ∧
       waitLoop poll timeout interval fuel k
         = (.apiError (deployFailMsg (poll j)), j * interval)) ∨
    ((∀ j, k ≤ j → j * interval < timeout → ¬ terminalStage (poll j)) ∧
       ∃ e, waitLoop poll timeout interval fuel k = (.apiError (timeoutMsg timeout), e) ∧
         timeout ≤ e ∧ e ≤ timeout + interval) := by
  intro fuel
  induction fuel with
  | zero =>
    intro k hfuel hk
    have hto : timeout ≤ k * interval := by simpa using hfuel
    refine Or.inr (Or.inr ⟨?_, k * interval, rfl, hto, by omega⟩)
    intro j hj hjlt
    have h1 : k * interval ≤ j * interval := Nat.mul_le_mul_right _ hj
    omega
  | succ fuel ih =>
    intro k hfuel hk
    by_cases hcond : k * interval < timeout
    · by_cases hs : stageOf (poll k) = "success"
      · exact Or.inl ⟨k, le_refl k, hcond, by omega, hs, by simp [waitLoop, hcond, hs]⟩
      · by_cases hf : stageOf (poll k) = "failed" ∨ stageOf (poll k) = "canceled"
        · refine Or.inr (Or.inl ⟨k, le_refl k, hcond, by omega, hf, ?_⟩)
          simp only [waitLoop, if_pos hcond, if_neg hs, if_pos hf]
        · have hnt : ¬ terminalStage (poll k) := by
            unfold terminalStage; tauto
          have hstep : waitLoop poll timeout interval (fuel + 1) k
              = waitLoop poll timeout interval fuel (k + 1) := by
            simp only [waitLoop, if_pos hcond, if_neg hs, if_neg hf]
          have hfuel' : timeout ≤ (k + 1 + fuel) * interval := by
            have he : k + 1 + fuel = k + (fuel + 1) := by omega
            rw [he]; exact hfuel
          have hk' : (k + 1) * interval < timeout + interval := by
            have he : (k + 1) * interval = k * interval + interval := by ring
            omega
          have hlift : ∀ j, k + 1 ≤ j →
              (∀ i, k + 1 ≤ i → i < j → ¬ terminalStage (poll i)) →
              ∀ i, k ≤ i → i < j → ¬ terminalStage (poll i) := by
            intro j hj hmin i hi1 hi2
            rcases Nat.eq_or_lt_of_le hi1 with h | h
            · rw [← h]; exact hnt
            · exact hmin i h hi2
          rcases ih (k + 1) hfuel' hk' with h | h | h
          · obtain ⟨j, hj1, hj2, hj3, hj4, hj5⟩ := h
            exact Or.inl ⟨j, by omega, hj2, hlift j hj1 hj3, hj4, by rw [hstep]; exact hj5⟩
          · obtain ⟨j, hj1, hj2, hj3, hj4, hj5⟩ := h
            exact Or.inr (Or.inl ⟨j, by omega, hj2, hlift j hj1 hj3, hj4,
              by rw [hstep]; exact hj5⟩)
          · obtain ⟨hall, e, he1, he2, he3⟩ := h
            refine Or.inr (Or.inr ⟨?_, e, by rw [hstep]; exact he1, he2, he3⟩)
            intro j hj hjlt
            rcases Nat.eq_or_lt_of_le hj with h | h
            · rw [← h]; exact hnt
            · exact hall j h hjlt
    · have hto : timeout ≤ k * interval := by omega
      refine Or.inr (Or.inr ⟨?_, k * interval, ?_, hto, by omega⟩)
      · intro j hj hjlt
        have h1 : k * interval ≤ j * interval := Nat.mul_le_mul_right _ hj
        omega
      · simp only [waitLoop, if_neg hcond]

/-- The top-level trichotomy for `wait_for_deployment`, phrased with the
abbreviations `timeoutMsg` and `deployFailMsg`; shared by the claim
theorems about polling. -/
theorem wait_for_deployment_cases (poll : Nat → DeployStatus) (timeout interval : Nat)
    (hint : 0 < interval) :
    (∃ j, j * interval < timeout ∧ (∀ i, i < j → ¬ terminalStage (poll i)) ∧
       stageOf (poll j) = "success" ∧
       wait_for_deployment poll timeout interval = (.ok (poll j), j * interval)) ∨
    (∃ j, j * interval < timeout ∧ (∀ i, i < j → ¬ terminalStage (poll i)) ∧
       (stageOf (poll j) = "failed" ∨ stageOf (poll j) = "canceled") ∧
       wait_for_deployment poll timeout interval
         = (.apiError (deployFailMsg (poll j)), j * interval)) ∨
    ((∀ j, j * interval < timeout → ¬ terminalStage (poll j)) ∧
       ∃ e, wait_for_deployment poll timeout interval
           = (.apiError (timeoutMsg timeout), e) ∧
         timeout ≤ e ∧ e ≤ timeout + interval) := by
  have hfuel : timeout ≤ (0 + (timeout + 1)) * interval := by
    have h1 : (timeout + 1) * 1 ≤ (timeout + 1) * interval :=
      Nat.mul_le_mul_left _ hint
    simp only [Nat.zero_add]
    omega
  have hk : 0 * interval < timeout + interval := by omega
  rcases waitLoop_cases poll timeout interval (timeout + 1) 0 hfuel hk with h | h | h
  · obtain ⟨j, _, hj2, hj3, hj4, hj5⟩ := h
    exact Or.inl ⟨j, hj2, fun i hi => hj3 i (Nat.zero_le i) hi, hj4, hj5⟩
  · obtain ⟨j, _, hj2, hj3, hj4, hj5⟩ := h
    exact Or.inr (Or.inl ⟨j, hj2, fun i hi => hj3 i (Nat.zero_le i) hi, hj4, hj5⟩)
  · obtain ⟨hall, e, he1, he2, he3⟩ := h
    exact Or.inr (Or.inr ⟨fun j hj => hall j (Nat.zero_le j) hj, e, he1, he2, he3⟩)

/-- C2: for every sequence of remote-reported stages, and a positive
polling interval, `wait_for_deployment` terminates in exactly one of
three ways: it returns the status descriptor of the first poll that
observes stage `success`; it raises an API error at the first poll that
observes stage `failed` or `canceled`; or, when no poll before the
deadline observes a terminal stage, it raises a timeout error naming the
configured timeout, at an elapsed time no less than `timeout` and no
more than `timeout + interval`. -/
theorem wait_for_deployment_trichotomy (poll : Nat → DeployStatus) (timeout interval : Nat)
    (hint : 0 < interval) :
    (∃ j, j * interval < timeout ∧ (∀ i, i < j → ¬ terminalStage (poll i)) ∧
       stageOf (poll j) = "success" ∧
       wait_for_deployment poll timeout interval = (.ok (poll j), j * interval)) ∨
    (∃ j, j * interval < timeout ∧ (∀ i, i < j → ¬ terminalStage (poll i)) ∧
       (stageOf (poll j) = "failed" ∨ stageOf (poll j) = "canceled") ∧
       wait_for_deployment poll timeout interval
         = (.apiError (deployFailMsg (poll j)), j * interval)) ∨
    ((∀ j, j * interval < timeout → ¬ terminalStage (poll j)) ∧
       ∃ e, wait_for_deployment poll timeout interval
           = (.apiError ("Deployment timed out after " ++ toString timeout ++ " seconds"), e) ∧
         timeout ≤ e ∧ e ≤ timeout + interval) :=
  wait_for_deployment_cases poll timeout interval hint

/-- A status sequence that never reaches a terminal stage. -/
def pollBuilding : Nat → DeployStatus := fun _ => ⟨some "building", none⟩

/-- Witness for the trichotomy theorem at a concrete non-terminating
status sequence, timeout 12 and interval 5. -/
theorem wait_for_deployment_trichotomy_witness :
    (∃ j, j * 5 < 12 ∧ (∀ i, i < j → ¬ terminalStage (pollBuilding i)) ∧
       stageOf (pollBuilding j) = "success" ∧
       wait_for_deployment pollBuilding 12 5 = (.ok (pollBuilding j), j * 5)) ∨
    (∃ j, j * 5 < 12 ∧ (∀ i, i < j → ¬ terminalStage (pollBuilding i)) ∧
       (stageOf (pollBuilding j) = "failed" ∨ stageOf (pollBuilding j) = "canceled") ∧
       wait_for_deployment pollBuilding 12 5
         = (.apiError (deployFailMsg (pollBuilding j)), j * 5)) ∨
    ((∀ j, j * 5 < 12 → ¬ terminalStage (pollBuilding j)) ∧
       ∃ e, wait_for_deployment pollBuilding 12 5
           = (.apiError ("Deployment timed out after " ++ toString 12 ++ " seconds"), e) ∧
         12 ≤ e ∧ e ≤ 12 + 5) :=
  wait_for_deployment_trichotomy pollBuilding 12 5 (by decide)

/-- C9: whenever the first terminal stage observed (before the
deadline) is `failed` or `canceled`, `wait_for_deployment` raises an
API error whose message names the stage and carries the remote-supplied
`error_message` when present, falling back to `"Unknown error"` when
absent — rather than returning. -/
theorem wait_for_deployment_failure_message (poll : Nat → DeployStatus)
    (timeout interval k : Nat) (hint : 0 < interval)
    (hk : k * interval < timeout)
    (hpre : ∀ i, i < k → ¬ terminalStage (poll i))
    (hfail : stageOf (poll k) = "failed" ∨ stageOf (poll k) = "canceled") :
    wait_for_deployment poll timeout interval =
      (.apiError ("Deployment " ++ stageOf (poll k) ++ ": "
        ++ (poll k).error_message.getD "Unknown error"), k * interval) := by
  rcases wait_for_deployment_cases poll timeout interval hint with h | h | h
  · obtain ⟨j, hj2, hj3, hj4, hj5⟩ := h
    exfalso
    rcases lt_trichotomy j k with hlt | heq | hgt
    · exact hpre j hlt (Or.inl hj4)
    · subst heq
      rcases hfail with hf | hf <;> rw [hj4] at hf <;> exact absurd hf (by decide)
    · exact hj3 k hgt (Or.inr hfail)
  · obtain ⟨j, hj2, hj3, hj4, hj5⟩ := h
    rcases lt_trichotomy j k with hlt | heq | hgt
    · exact absurd (Or.inr hj4) (hpre j hlt)
    · subst heq; exact hj5
    · exact absurd (Or.inr hfail) (hj3 k hgt)
  · exact absurd (Or.inr hfail) (h.1 k hk)

/-- A status sequence that reports `queued` and then `failed` with a
remote error message. -/
def pollQueuedThenFailed : Nat → DeployStatus :=
  fun k => if k = 0 then ⟨some "queued", none⟩ else ⟨some "failed", some "Build error"⟩

/-- Witness for the failure-message theorem at the status sequence
`queued, failed`. -/
theorem wait_for_deployment_failure_message_witness :
    wait_for_deployment pollQueuedThenFailed 300 5 =
      (.apiError ("Deployment " ++ stageOf (pollQueuedThenFailed 1) ++ ": "
        ++ (pollQueuedThenFailed 1).error_message.getD "Unknown error"), 1 * 5) :=
  wait_for_deployment_failure_message pollQueuedThenFailed 300 5 1 (by decide) (by decide)
    (by decide) (by decide)

/-! ## File upload (`upload_files`, lines 164-219)

`upload_files` opens one OS file handle per file of a batch, builds the
Python dict `files_dict` (relative path → `(rel_path, file object,
content type)`) and the dict `manifest` (relative path → `{"size": …,
"type": …}`), adds the serialized manifest under the key
`"manifest.json"`, POSTs the multipart payload, and closes every file
object still reachable from `files_dict`.  The embedding makes the
handles explicit (numbered in order of opening) and threads a trace of
opened handles, closed handles, and the payload and manifest of every
POST actually issued.  The filesystem (`openFails`) and the upload
target (`post`, indexed by batch number) enter as parameters. -/

/-- One element of the list returned by `_prepare_files`: the source
path together with the metadata dict (relative upload path, size,
content type). -/
structure PreparedFile where
  src : String
  path : String
  size : Nat
  content_type : String
deriving DecidableEq

/-- A manifest value: `{"size": size, "type": content_type}`. -/
structure FileMeta where
  size : Nat
  type : String
deriving DecidableEq

/-- A value of the multipart `files_dict`: an open file object
(identified by its handle number) or a plain string (the serialized
manifest). -/
inductive PartBody where
  | handle (id : Nat)
  | strBody (s : String)
deriving DecidableEq

/-- Python `dict` assignment `d[k] = v` on an insertion-ordered
association list: an existing key keeps its position and gets the new
value; a new key is appended. -/
def dictInsert {α : Type} (k : String) (v : α) : List (String × α) → List (String × α)
  | [] => [(k, v)]
  | p :: rest => if p.1 = k then (k, v) :: rest else p :: dictInsert k v rest

/-- A JSON string literal (the relative paths and types in scope contain
no characters needing escapes). -/
def jsonStr (s : String) : String := "\"" ++ s ++ "\""

/-- One `json.dumps` entry of the manifest dict. -/
def manifestEntryJson (p : String × FileMeta) : String :=
  jsonStr p.1 ++ ": \x7b\"size\": " ++ toString p.2.size
    ++ ", \"type\": " ++ jsonStr p.2.type ++ "\x7d"

/-- Embeds `json.dumps(manifest)`. -/
def manifestJson (mf : List (String × FileMeta)) : String :=
  "\x7b" ++ String.intercalate ", " (mf.map manifestEntryJson) ++ "\x7d"

/-- Result of the `for file_path, file_info in batch` loop that opens the
batch's files and fills `files_dict` and `manifest`.  `openFailed` is
set when an `open` call raised partway (the loop is outside the
`try`, so the exception propagates with nothing closed). -/
structure BatchBuild where
  files_dict : List (String × PartBody)
  manifest : List (String × FileMeta)
  opened : List Nat
  openFailed : Bool
deriving DecidableEq

/-- The batch-building loop: for each file, open it (handle numbers are
allocated sequentially from `nextId`) and insert the file entry and the
manifest entry under the file's relative path. -/
def buildBatchLoop (openFails : String → Bool) :
    List PreparedFile → Nat → List (String × PartBody) → List (String × FileMeta) →
      List Nat → BatchBuild
  | [], _, fd, mf, opened => ⟨fd, mf, opened, false⟩
  | f :: rest, nextId, fd, mf, opened =>
    if openFails f.src then ⟨fd, mf, opened, true⟩
    else
      buildBatchLoop openFails rest (nextId + 1)
        (dictInsert f.path (.handle nextId) fd)
        (dictInsert f.path ⟨f.size, f.content_type⟩ mf)
        (opened ++ [nextId])

/-- Behaviour of `requests.post(upload_url, files=files_dict)` for one
batch: either an HTTP response with a status code and body text, or a
raised exception. -/
inductive PostOutcome where
  | resp (status : Nat) (text : String)
  | raised (msg : String)
deriving DecidableEq

/-- The handle numbers of the file-object entries of a `files_dict` (the
entries on which the cleanup loop's `hasattr(file_tuple, "close")`
holds), in dict order. -/
def handlesOf (fd : List (String × PartBody)) : List Nat :=
  fd.filterMap (fun p => match p.2 with | .handle i => some i | .strBody _ => none)

/-- The Python exception kinds `upload_files` can propagate. -/
inductive PyErr where
  | api (msg : String)
  | value (msg : String)
  | os (msg : String)
deriving DecidableEq

/-- Observable effects of `upload_files`: handles opened, handles
closed, and the payload and manifest of each batch POST issued, in
order. -/
structure UploadTrace where
  opened : List Nat
  closed : List Nat
  payloads : List (List (String × PartBody))
  manifests : List (List (String × FileMeta))
deriving DecidableEq

/-- The batch loop of `upload_files` (lines 186-217), one iteration per
slice `files_to_upload[i:i+batch_size]`; `j` is the batch index and
`nextId` the next free handle number.  A non-200 response or a raised
POST closes the batch's reachable handles and aborts; an `open` failure
aborts with nothing closed. -/
def uploadBatches (openFails : String → Bool) (post : Nat → PostOutcome) :
    List (List PreparedFile) → Nat → Nat → UploadTrace → Except PyErr Unit × UploadTrace
  | [], _, _, tr => (.ok (), tr)
  | b :: rest, j, nextId, tr =>
    let bb := buildBatchLoop openFails b nextId [] [] []
    if bb.openFailed then
      (.error (.os "open failed"),
        ⟨tr.opened ++ bb.opened, tr.closed, tr.payloads, tr.manifests⟩)
    else
      let fd := dictInsert "manifest.json" (.strBody (manifestJson bb.manifest)) bb.files_dict
      let tr2 : UploadTrace :=
        ⟨tr.opened ++ bb.opened, tr.closed ++ handlesOf fd,
          tr.payloads ++ [fd], tr.manifests ++ [bb.manifest]⟩
      match post j with
      | .raised m => (.error (.os m), tr2)
      | .resp status text =>
        if status ≠ 200 then
          (.error (.api ("Upload failed: " ++ text)), tr2)
        else
          uploadBatches openFails post rest (j + 1) (nextId + bb.opened.length) tr2

/-- The deployment dict as far as `upload_files` reads it. -/
structure Deployment where
  upload_url : Option String
deriving DecidableEq

/-- Python truthiness of `deployment.get("upload_url")`: absent and
empty-string values are falsy. -/
def truthyUrl : Option String → Bool
  | none => false
  | some s => !(s = "")

/-- The local directory argument: either invalid (missing or not a
directory, making `_prepare_files` raise `ValueError`) or a directory
whose prepared-file list is given. -/
inductive LocalDir where
  | missing
  | dir (files : List PreparedFile)
deriving DecidableEq

/-- The batch slices `files_to_upload[i:i+B]` for
`i in range(0, len(files_to_upload), B)`; the `j`-th slice starts at
`i = j * B`. -/
def sliceBatches (B : Nat) (files : List PreparedFile) : List (List PreparedFile) :=
  (List.range ((files.length + B - 1) / B)).map (fun j => (files.drop (j * B)).take B)

/-- Embeds `upload_files` (lines 164-219): check the upload URL for
truthiness, prepare the files (raising for an invalid directory), and
upload in batches of 10, returning `True` on success.  The result is
paired with the trace of effects. -/
def upload_files (deployment : Deployment) (dirArg : LocalDir)
    (openFails : String → Bool) (post : Nat → PostOutcome) :
    Except PyErr Bool × UploadTrace :=
  if !(truthyUrl deployment.upload_url) then
    (.error (.api "No upload URL provided in deployment"), ⟨[], [], [], []⟩)
  else
    match dirArg with
    | .missing => (.error (.value "Directory not found"), ⟨[], [], [], []⟩)
    | .dir files =>
      match uploadBatches openFails post (sliceBatches 10 files) 0 0 ⟨[], [], [], []⟩ with
      | (.ok _, tr) => (.ok true, tr)
      | (.error e, tr) => (.error e, tr)

/-- The file entries a fully-built batch contributes to `files_dict`
when its relative paths are distinct: one file-object entry per file,
keyed by relative path, handles numbered from `n`. -/
def fileEntries : List PreparedFile → Nat → List (String × PartBody)
  | [], _ => []
  | f :: rest, n => (f.path, .handle n) :: fileEntries rest (n + 1)

/-- The manifest a fully-built batch produces when its relative paths
are distinct. -/
def manifestOf (b : List PreparedFile) : List (String × FileMeta) :=
  b.map (fun f => (f.path, ⟨f.size, f.content_type⟩))

/-- The full multipart payload of one batch: the file entries followed
by the single serialized-manifest entry. -/
def payloadOf (b : List PreparedFile) (n : Nat) : List (String × PartBody) :=
  fileEntries b n ++ [("manifest.json", .strBody (manifestJson (manifestOf b)))]

/-- The payloads of successive batches, handle numbers accumulating. -/
def payloadsOf : List (List PreparedFile) → Nat → List (List (String × PartBody))
  | [], _ => []
  | b :: bs, n => payloadOf b n :: payloadsOf bs (n + b.length)

/-- Inserting a fresh key into a dict appends the binding. -/
theorem dictInsert_fresh {α : Type} (k : String) (v : α) :
    ∀ d : List (String × α), k ∉ d.map Prod.fst → dictInsert k v d = d ++ [(k, v)] := by
  intro d
  induction d with
  | nil => intro _; rfl
  | cons p rest ih =>
    intro h
    simp only [List.map_cons, List.mem_cons] at h
    push_neg at h
    simp only [dictInsert]
    rw [if_neg (fun he => h.1 he.symm), ih h.2]
    simp

/-- When every `open` of the batch succeeds, the building loop does not
set `openFailed`. -/
theorem buildBatchLoop_no_openFail (openFails : String → Bool) :
    ∀ (b : List PreparedFile) (n : Nat) (fd : List (String × PartBody))
      (mf : List (String × FileMeta)) (op : List Nat),
      (∀ f ∈ b, openFails f.src = false) →
      (buildBatchLoop openFails b n fd mf op).openFailed = false := by
  intro b
  induction b with
  | nil => intro n fd mf op _; rfl
  | cons f rest ih =>
    intro n fd mf op h
    have hf : openFails f.src = false := h f (by simp)
    simp only [buildBatchLoop, hf, Bool.false_eq_true, if_false]
    exact ih _ _ _ _ (fun g hg => h g (by simp [hg]))

/-- Closed form of the batch-building loop when every `open` succeeds
and the batch's relative paths are distinct and fresh. -/
theorem buildBatchLoop_closed_form (openFails : String → Bool) :
    ∀ (b : List PreparedFile) (n : Nat) (fd : List (String × PartBody))
      (mf : List (String × FileMeta)) (op : List Nat),
      (∀ f ∈ b, openFails f.src = false) →
      (b.map (fun f => f.path)).Nodup →
      (∀ f ∈ b, f.path ∉ fd.map Prod.fst) →
      (∀ f ∈ b, f.path ∉ mf.map Prod.fst) →
      buildBatchLoop openFails b n fd mf op
        = ⟨fd ++ fileEntries b n, mf ++ manifestOf b, op ++ List.range' n b.length, false⟩ := by
  intro b
  induction b with
  | nil =>
    intro n fd mf op _ _ _ _
    simp [buildBatchLoop, fileEntries, manifestOf, List.range']
  | cons f rest ih =>
    intro n fd mf op hopen hnodup hfd hmf
    have hf : openFails f.src = false := hopen f (by simp)
    have hfd1 : f.path ∉ fd.map Prod.fst := hfd f (by simp)
    have hmf1 : f.path ∉ mf.map Prod.fst := hmf f (by simp)
    simp only [List.map_cons, List.nodup_cons] at hnodup
    have hstep : buildBatchLoop openFails (f :: rest) n fd mf op
        = buildBatchLoop openFails rest (n + 1)
            (dictInsert f.path (.handle n) fd)
            (dictInsert f.path ⟨f.size, f.content_type⟩ mf)
            (op ++ [n]) := by
      simp only [buildBatchLoop, hf, Bool.false_eq_true, if_false]
    have hfd2 : ∀ g ∈ rest, g.path ∉ (fd ++ [(f.path, PartBody.handle n)]).map Prod.fst := by
      intro g hg
      simp only [List.map_append, List.mem_append, List.map_cons, List.map_nil,
        List.mem_singleton]
      push_neg
      refine ⟨hfd g (by simp [hg]), fun he => hnodup.1 ?_⟩
      exact he ▸ List.mem_map.mpr ⟨g, hg, rfl⟩
    have hmf2 : ∀ g ∈ rest,
        g.path ∉ (mf ++ [(f.path, (⟨f.size, f.content_type⟩ : FileMeta))]).map Prod.fst := by
      intro g hg
      simp only [List.map_append, List.mem_append, List.map_cons, List.map_nil,
        List.mem_singleton]
      push_neg
      refine ⟨hmf g (by simp [hg]), fun he => hnodup.1 ?_⟩
      exact he ▸ List.mem_map.mpr ⟨g, hg, rfl⟩
    rw [hstep, dictInsert_fresh _ _ _ hfd1, dictInsert_fresh _ _ _ hmf1,
      ih (n + 1) _ _ _ (fun g hg => hopen g (by simp [hg])) hnodup.2 hfd2 hmf2]
    have hrange : List.range' n (rest.length + 1) = n :: List.range' (n + 1) rest.length := rfl
    simp [fileEntries, manifestOf, hrange, List.append_assoc]

/-- The handle numbers of the file entries of a batch. -/
theorem handlesOf_fileEntries :
    ∀ (b : List PreparedFile) (n : Nat), handlesOf (fileEntries b n) = List.range' n b.length := by
  intro b
  induction b with
  | nil => intro n; rfl
  | cons f rest ih =>
    intro n
    have hrange : List.range' n (rest.length + 1) = n :: List.range' (n + 1) rest.length := rfl
    simp [handlesOf, fileEntries, hrange, ← ih (n + 1), List.filterMap_cons]

/-- The function `handlesOf` distributes over dict concatenation. -/
theorem handlesOf_append (a b : List (String × PartBody)) :
    handlesOf (a ++ b) = handlesOf a ++ handlesOf b := by
  simp [handlesOf, List.filterMap_append]

/-- The serialized-manifest entry carries no file object, so the handles
of a full batch payload are exactly its file entries' handles. -/
theorem handlesOf_payloadOf (b : List PreparedFile) (n : Nat) :
    handlesOf (payloadOf b n) = List.range' n b.length := by
  rw [payloadOf, handlesOf_append, handlesOf_fileEntries]
  simp [handlesOf]

/-- The keys of a batch's file entries are its relative paths. -/
theorem fileEntries_keys :
    ∀ (b : List PreparedFile) (n : Nat),
      (fileEntries b n).map Prod.fst = b.map (fun f => f.path) := by
  intro b
  induction b with
  | nil => intro n; rfl
  | cons f rest ih => intro n; simp [fileEntries, ih (n + 1)]

/-- Looking a file's relative path up in its batch's manifest returns
that file's size and content type, provided the batch's relative paths
are distinct. -/
theorem manifestOf_find :
    ∀ (b : List PreparedFile), (b.map (fun f => f.path)).Nodup →
      ∀ f ∈ b, (manifestOf b).find? (fun q => q.1 = f.path)
        = some (f.path, ⟨f.size, f.content_type⟩) := by
  intro b
  induction b with
  | nil => intro _ f hf; cases hf
  | cons g rest ih =>
    intro hnodup f hf
    simp only [List.map_cons, List.nodup_cons] at hnodup
    rcases List.mem_cons.mp hf with rfl | hmem
    · simp [manifestOf, List.find?_cons_of_pos]
    · have hne : ¬ (g.path = f.path) := by
        intro he
        exact hnodup.1 (he ▸ List.mem_map.mpr ⟨f, hmem, rfl⟩)
      simp only [manifestOf, List.map_cons]
      rw [List.find?_cons_of_neg _ (by simpa using hne)]
      exact ih hnodup.2 f hmem

/-- The handle numbers allocated across successive fully-built batches,
starting from `n`. -/
def handlesList : List (List PreparedFile) → Nat → List Nat
  | [], _ => []
  | b :: bs, n => List.range' n b.length ++ handlesList bs (n + b.length)

/-- The number of batch slices is `ceil(N / B)`. -/
theorem sliceBatches_length (B : Nat) (files : List PreparedFile) :
    (sliceBatches B files).length = (files.length + B - 1) / B := by
  simp [sliceBatches]

/-- Every batch slice is a contiguous `drop`/`take` slice of the file
list. -/
theorem sliceBatches_mem (B : Nat) (files : List PreparedFile) (b : List PreparedFile)
    (h : b ∈ sliceBatches B files) : ∃ j, b = (files.drop (j * B)).take B := by
  simp only [sliceBatches, List.mem_map, List.mem_range] at h
  obtain ⟨j, _, hj⟩ := h
  exact ⟨j, hj.symm⟩

/-- Every batch slice is a sublist of the file list. -/
theorem sliceBatches_sublist (B : Nat) (files : List PreparedFile) (b : List PreparedFile)
    (h : b ∈ sliceBatches B files) : b.Sublist files := by
  obtain ⟨j, rfl⟩ := sliceBatches_mem B files b h
  exact ((files.drop (j * B)).take_sublist B).trans (files.drop_sublist (j * B))

/-- Every batch slice holds at most `B` files. -/
theorem sliceBatches_len_le (B : Nat) (files : List PreparedFile) (b : List PreparedFile)
    (h : b ∈ sliceBatches B files) : b.length ≤ B := by
  obtain ⟨j, rfl⟩ := sliceBatches_mem B files b h
  exact List.length_take_le B _

/-- Closed form of the batch loop when every `open` succeeds, every
batch's relative paths are distinct and differ from `manifest.json`,
and every POST answers 200: all batches are uploaded in order, and
every handle opened is closed. -/
theorem uploadBatches_ok (openFails : String → Bool) (post : Nat → PostOutcome) :
    ∀ (bs : List (List PreparedFile)) (j0 n0 : Nat) (tr : UploadTrace),
      (∀ b ∈ bs, ∀ f ∈ b, openFails f.src = false) →
      (∀ b ∈ bs, (b.map (fun f => f.path)).Nodup) →
      (∀ b ∈ bs, ∀ f ∈ b, f.path ≠ "manifest.json") →
      (∀ i, i < bs.length → ∃ t, post (j0 + i) = .resp 200 t) →
      uploadBatches openFails post bs j0 n0 tr
        = (.ok (), ⟨tr.opened ++ handlesList bs n0,
                    tr.closed ++ handlesList bs n0,
                    tr.payloads ++ payloadsOf bs n0,
                    tr.manifests ++ bs.map manifestOf⟩) := by
  intro bs
  induction bs with
  | nil =>
    intro j0 n0 tr _ _ _ _
    simp [uploadBatches, payloadsOf, handlesList]
  | cons b rest ih =>
    intro j0 n0 tr hopen hnodup hnm hpost
    have hb_open : ∀ f ∈ b, openFails f.src = false := hopen b (by simp)
    have hb_nodup := hnodup b (by simp)
    have hb_nm := hnm b (by simp)
    obtain ⟨t, ht⟩ := hpost 0 (by simp)
    rw [Nat.add_zero] at ht
    have hbb := buildBatchLoop_closed_form openFails b n0 [] [] [] hb_open hb_nodup
      (by simp) (by simp)
    simp only [List.nil_append] at hbb
    have hfresh : "manifest.json" ∉ (fileEntries b n0).map Prod.fst := by
      rw [fileEntries_keys]
      intro hmem
      obtain ⟨f, hf, hfe⟩ := List.mem_map.mp hmem
      exact hb_nm f hf hfe
    have hfd : dictInsert "manifest.json"
          (PartBody.strBody (manifestJson (manifestOf b))) (fileEntries b n0)
        = payloadOf b n0 :=
      dictInsert_fresh _ _ _ hfresh
    simp only [uploadBatches, hbb, ht, hfd, handlesOf_payloadOf, List.length_range']
    rw [if_neg (by simp)]
    rw [ih (j0 + 1) (n0 + b.length) _ (fun c hc => hopen c (by simp [hc]))
      (fun c hc => hnodup c (by simp [hc])) (fun c hc => hnm c (by simp [hc]))
      (fun i hi => by
        obtain ⟨t0, ht0⟩ := hpost (i + 1) (by simpa using hi)
        exact ⟨t0, by rw [show j0 + 1 + i = j0 + (i + 1) from by omega]; exact ht0⟩)]
    simp [handlesList, payloadsOf, List.append_assoc]

/-- Scoped-resource property of the batch loop for an arbitrary upload
target: provided every `open` succeeds and no relative path collides
with another or with `manifest.json`, every handle opened is closed by
the time the loop returns or raises — whatever the POSTs do. -/
theorem uploadBatches_closes (openFails : String → Bool) (post : Nat → PostOutcome) :
    ∀ (bs : List (List PreparedFile)) (j0 n0 : Nat) (tr : UploadTrace),
      (∀ b ∈ bs, ∀ f ∈ b, openFails f.src = false) →
      (∀ b ∈ bs, (b.map (fun f => f.path)).Nodup) →
      (∀ b ∈ bs, ∀ f ∈ b, f.path ≠ "manifest.json") →
      tr.closed = tr.opened →
      ((uploadBatches openFails post bs j0 n0 tr).2).closed
        = ((uploadBatches openFails post bs j0 n0 tr).2).opened := by
  intro bs
  induction bs with
  | nil => intro j0 n0 tr _ _ _ htr; simpa [uploadBatches] using htr
  | cons b rest ih =>
    intro j0 n0 tr hopen hnodup hnm htr
    have hb_open : ∀ f ∈ b, openFails f.src = false := hopen b (by simp)
    have hbb := buildBatchLoop_closed_form openFails b n0 [] [] [] hb_open
      (hnodup b (by simp)) (by simp) (by simp)
    simp only [List.nil_append] at hbb
    have hfresh : "manifest.json" ∉ (fileEntries b n0).map Prod.fst := by
      rw [fileEntries_keys]
      intro hmem
      obtain ⟨f, hf, hfe⟩ := List.mem_map.mp hmem
      exact hnm b (by simp) f hf hfe
    have hfd : dictInsert "manifest.json"
          (PartBody.strBody (manifestJson (manifestOf b))) (fileEntries b n0)
        = payloadOf b n0 :=
      dictInsert_fresh _ _ _ hfresh
    simp only [uploadBatches, hbb, hfd, handlesOf_payloadOf, List.length_range',
      Bool.false_eq_true, if_false]
    rcases hp : post j0 with ⟨status, text⟩ | m
    · dsimp only
      by_cases hst : status = 200
      · subst hst
        rw [if_neg (by simp)]
        exact ih (j0 + 1) (n0 + b.length) _ (fun c hc => hopen c (by simp [hc]))
          (fun c hc => hnodup c (by simp [hc])) (fun c hc => hnm c (by simp [hc]))
          (by simp [htr])
      · rw [if_pos hst]
        simp [htr]
    · simp [htr]

/-- When the first `k` POSTs answer 200 but POST `k` answers a non-200
status, the batch loop raises `Upload failed:` with that response body,
having issued exactly `k + 1` POSTs. -/
theorem uploadBatches_abort (openFails : String → Bool) (post : Nat → PostOutcome) :
    ∀ (bs : List (List PreparedFile)) (k j0 n0 : Nat) (tr : UploadTrace) (s : Nat) (t : String),
      (∀ b ∈ bs, ∀ f ∈ b, openFails f.src = false) →
      k < bs.length →
      (∀ i, i < k → ∃ t0, post (j0 + i) = .resp 200 t0) →
      post (j0 + k) = .resp s t → s ≠ 200 →
      ∃ tr', uploadBatches openFails post bs j0 n0 tr
          = (.error (.api ("Upload failed: " ++ t)), tr')
        ∧ tr'.payloads.length = tr.payloads.length + (k + 1) := by
  intro bs
  induction bs with
  | nil => intro k j0 n0 tr s t _ hk _ _ _; exact absurd hk (by simp)
  | cons b rest ih =>
    intro k j0 n0 tr s t hopen hk hprev hpost hs
    have hb_open : ∀ f ∈ b, openFails f.src = false := hopen b (by simp)
    have hnf := buildBatchLoop_no_openFail openFails b n0 [] [] [] hb_open
    match k, hk with
    | 0, _ =>
      rw [Nat.add_zero] at hpost
      refine ⟨⟨tr.opened ++ (buildBatchLoop openFails b n0 [] [] []).opened,
              tr.closed ++ handlesOf (dictInsert "manifest.json"
                (PartBody.strBody (manifestJson (buildBatchLoop openFails b n0 [] [] []).manifest))
                (buildBatchLoop openFails b n0 [] [] []).files_dict),
              tr.payloads ++ [dictInsert "manifest.json"
                (PartBody.strBody (manifestJson (buildBatchLoop openFails b n0 [] [] []).manifest))
                (buildBatchLoop openFails b n0 [] [] []).files_dict],
              tr.manifests ++ [(buildBatchLoop openFails b n0 [] [] []).manifest]⟩, ?_, ?_⟩
      · simp only [uploadBatches, hnf, Bool.false_eq_true, if_false, hpost]
        rw [if_pos hs]
      · simp
    | k' + 1, hk =>
      obtain ⟨t0, ht0⟩ := hprev 0 (by omega)
      rw [Nat.add_zero] at ht0
      have hrec := ih k' (j0 + 1) (n0 + (buildBatchLoop openFails b n0 [] [] []).opened.length)
        ⟨tr.opened ++ (buildBatchLoop openFails b n0 [] [] []).opened,
         tr.closed ++ handlesOf (dictInsert "manifest.json"
           (PartBody.strBody (manifestJson (buildBatchLoop openFails b n0 [] [] []).manifest))
           (buildBatchLoop openFails b n0 [] [] []).files_dict),
         tr.payloads ++ [dictInsert "manifest.json"
           (PartBody.strBody (manifestJson (buildBatchLoop openFails b n0 [] [] []).manifest))
           (buildBatchLoop openFails b n0 [] [] []).files_dict],
         tr.manifests ++ [(buildBatchLoop openFails b n0 [] [] []).manifest]⟩
        s t (fun c hc => hopen c (by simp [hc])) (by simpa using hk)
        (fun i hi => by
          obtain ⟨t1, ht1⟩ := hprev (i + 1) (by omega)
          exact ⟨t1, by rw [show j0 + 1 + i = j0 + (i + 1) from by omega]; exact ht1⟩)
        (by rw [show j0 + 1 + k' = j0 + (k' + 1) from by omega]; exact hpost) hs
      obtain ⟨tr', htr1, htr2⟩ := hrec
      refine ⟨tr', ?_, ?_⟩
      · simp only [uploadBatches, hnf, Bool.false_eq_true, if_false, ht0]
        rw [if_neg (by simp)]
        exact htr1
      · rw [htr2]
        simp only [List.length_append, List.length_cons, List.length_nil]
        omega

/-- One payload per batch. -/
theorem payloadsOf_length :
    ∀ (bs : List (List PreparedFile)) (n : Nat), (payloadsOf bs n).length = bs.length := by
  intro bs
  induction bs with
  | nil => intro n; rfl
  | cons b rest ih => intro n; simp [payloadsOf, ih (n + b.length)]

/-- Every payload in the batched list is the payload of one of the
batches. -/
theorem payloadsOf_mem :
    ∀ (bs : List (List PreparedFile)) (n : Nat) (p : List (String × PartBody)),
      p ∈ payloadsOf bs n → ∃ b n', b ∈ bs ∧ p = payloadOf b n' := by
  intro bs
  induction bs with
  | nil => intro n p hp; cases hp
  | cons b rest ih =>
    intro n p hp
    rcases List.mem_cons.mp hp with rfl | hmem
    · exact ⟨b, n, by simp, rfl⟩
    · obtain ⟨c, n', hc, hpc⟩ := ih (n + b.length) p hmem
      exact ⟨c, n', by simp [hc], hpc⟩

/-- A batch whose relative paths all differ from `manifest.json` yields
a payload with exactly one `manifest.json` entry. -/
theorem payloadOf_manifest_count (b : List PreparedFile) (n : Nat)
    (hb : ∀ f ∈ b, f.path ≠ "manifest.json") :
    ((payloadOf b n).map Prod.fst).count "manifest.json" = 1 := by
  rw [payloadOf, List.map_append, fileEntries_keys, List.count_append]
  have h0 : (b.map (fun f => f.path)).count "manifest.json" = 0 := by
    rw [List.count_eq_zero]
    intro hmem
    obtain ⟨f, hf, hfe⟩ := List.mem_map.mp hmem
    exact hb f hf hfe
  simp [h0]

/-- The batches of a file list with distinct relative paths have
distinct relative paths. -/
theorem sliceBatches_nodup (files : List PreparedFile)
    (hnodup : (files.map (fun f => f.path)).Nodup) (B : Nat) (b : List PreparedFile)
    (hb : b ∈ sliceBatches B files) : (b.map (fun f => f.path)).Nodup :=
  List.Nodup.sublist ((sliceBatches_sublist B files b hb).map (fun f => f.path)) hnodup

/-- C1: with deployment-provided upload URL, distinct prepared relative
paths none of which is `manifest.json`, all opens succeeding and every
POST answering 200, `upload_files` issues exactly `ceil(N / 10)` batch
uploads, sequentially in slice order; each issued payload consists of
the batch's file entries keyed by relative path — at most 10 of them —
plus exactly one `manifest.json` entry carrying the serialized batch
manifest, and each batch's manifest maps each of the batch's relative
paths to that file's size and content type. -/
theorem upload_files_batching (url : String) (files : List PreparedFile)
    (openFails : String → Bool) (post : Nat → PostOutcome)
    (hurl : url ≠ "")
    (hnodup : (files.map (fun f => f.path)).Nodup)
    (hnm : ∀ f ∈ files, f.path ≠ "manifest.json")
    (hopen : ∀ f ∈ files, openFails f.src = false)
    (hpost : ∀ i, i < (files.length + 10 - 1) / 10 → ∃ t, post i = .resp 200 t) :
    (upload_files ⟨some url⟩ (.dir files) openFails post).1 = .ok true ∧
    ((upload_files ⟨some url⟩ (.dir files) openFails post).2).payloads.length
        = (files.length + 10 - 1) / 10 ∧
    ((upload_files ⟨some url⟩ (.dir files) openFails post).2).payloads
        = payloadsOf (sliceBatches 10 files) 0 ∧
    ((upload_files ⟨some url⟩ (.dir files) openFails post).2).manifests
        = (sliceBatches 10 files).map manifestOf ∧
    (∀ p ∈ ((upload_files ⟨some url⟩ (.dir files) openFails post).2).payloads,
        ((p.map Prod.fst).count "manifest.json" = 1 ∧ (handlesOf p).length ≤ 10)) ∧
    (∀ b ∈ sliceBatches 10 files, ∀ f ∈ b,
        (manifestOf b).find? (fun q => q.1 = f.path)
          = some (f.path, ⟨f.size, f.content_type⟩)) := by
  have hbs_sub : ∀ b ∈ sliceBatches 10 files, ∀ f ∈ b, f ∈ files :=
    fun b hb f hf => (sliceBatches_sublist 10 files b hb).subset hf
  have hbs_open : ∀ b ∈ sliceBatches 10 files, ∀ f ∈ b, openFails f.src = false :=
    fun b hb f hf => hopen f (hbs_sub b hb f hf)
  have hbs_nodup : ∀ b ∈ sliceBatches 10 files, (b.map (fun f => f.path)).Nodup :=
    fun b hb => sliceBatches_nodup files hnodup 10 b hb
  have hbs_nm : ∀ b ∈ sliceBatches 10 files, ∀ f ∈ b, f.path ≠ "manifest.json" :=
    fun b hb f hf => hnm f (hbs_sub b hb f hf)
  have hpost' : ∀ i, i < (sliceBatches 10 files).length → ∃ t, post (0 + i) = .resp 200 t := by
    intro i hi
    obtain ⟨t, ht⟩ := hpost i (by rwa [sliceBatches_length] at hi)
    exact ⟨t, by simpa using ht⟩
  have hok := uploadBatches_ok openFails post (sliceBatches 10 files) 0 0 ⟨[], [], [], []⟩
    hbs_open hbs_nodup hbs_nm hpost'
  have hturl : truthyUrl (some url) = true := by simp [truthyUrl, hurl]
  have hmain : upload_files ⟨some url⟩ (.dir files) openFails post
      = (.ok true, ⟨handlesList (sliceBatches 10 files) 0,
          handlesList (sliceBatches 10 files) 0,
          payloadsOf (sliceBatches 10 files) 0,
          (sliceBatches 10 files).map manifestOf⟩) := by
    simp only [upload_files, hturl, Bool.not_true, Bool.false_eq_true, if_false]
    rw [hok]
    simp
  refine ⟨by rw [hmain], by rw [hmain]; simpa [payloadsOf_length] using
      (sliceBatches_length 10 files), by rw [hmain], by rw [hmain], ?_, ?_⟩
  · intro p hp
    rw [hmain] at hp
    obtain ⟨b, n', hb, rfl⟩ := payloadsOf_mem (sliceBatches 10 files) 0 p hp
    constructor
    · exact payloadOf_manifest_count b n' (hbs_nm b hb)
    · rw [handlesOf_payloadOf, List.length_range']
      exact sliceBatches_len_le 10 files b hb
  · intro b hb f hf
    exact manifestOf_find b (hbs_nodup b hb) f hf

/-- The three-file scenario from the spec: `index.html`, `style.css`,
`logo.png`. -/
def demoFiles : List PreparedFile :=
  [⟨"/site/index.html", "index.html", 100, "text/html"⟩,
   ⟨"/site/style.css", "style.css", 50, "text/css"⟩,
   ⟨"/site/logo.png", "logo.png", 20, "image/png"⟩]

/-- A filesystem on which every `open` succeeds. -/
def noOpenFail : String → Bool := fun _ => false

/-- An upload target that accepts every batch. -/
def alwaysOk200 : Nat → PostOutcome := fun _ => .resp 200 ""

/-- Witness for the batching theorem on the three-file scenario: one
batch is issued. -/
theorem upload_files_batching_witness :
    (upload_files ⟨some "https://upload.example"⟩ (.dir demoFiles) noOpenFail alwaysOk200).1
        = .ok true ∧
    ((upload_files ⟨some "https://upload.example"⟩ (.dir demoFiles) noOpenFail
        alwaysOk200).2).payloads.length = (demoFiles.length + 10 - 1) / 10 :=
  ⟨(upload_files_batching "https://upload.example" demoFiles noOpenFail alwaysOk200
      (by decide) (by decide) (by decide) (by decide)
      (fun i _ => ⟨"", rfl⟩)).1,
   (upload_files_batching "https://upload.example" demoFiles noOpenFail alwaysOk200
      (by decide) (by decide) (by decide) (by decide)
      (fun i _ => ⟨"", rfl⟩)).2.1⟩

/-- A directory containing a file whose relative upload path is
`manifest.json` — a perfectly ordinary static site (e.g. a PWA
manifest). -/
def leakFiles : List PreparedFile :=
  [⟨"/site/index.html", "index.html", 100, "text/html"⟩,
   ⟨"/site/manifest.json", "manifest.json", 2, "application/json"⟩]

/-- C3 counterexample: on a batch containing a file whose relative path
is `manifest.json`, the serialized-manifest entry overwrites that
file's entry in `files_dict`, so the cleanup loops — which iterate over
`files_dict.values()` — never see the file's handle: the batch succeeds
(handles 0 and 1 were opened) yet only handle 0 is closed.  The claim
that every handle opened for a batch is closed on every exit of the
batch is therefore false. -/
theorem upload_files_handle_leak_cex :
    (upload_files ⟨some "u"⟩ (.dir leakFiles) noOpenFail (fun _ => .resp 200 "ok")).1
        = .ok true ∧
    ((upload_files ⟨some "u"⟩ (.dir leakFiles) noOpenFail
        (fun _ => .resp 200 "ok")).2).opened = [0, 1] ∧
    ((upload_files ⟨some "u"⟩ (.dir leakFiles) noOpenFail
        (fun _ => .resp 200 "ok")).2).closed = [0] ∧
    ¬ ((upload_files ⟨some "u"⟩ (.dir leakFiles) noOpenFail
        (fun _ => .resp 200 "ok")).2).closed
      = ((upload_files ⟨some "u"⟩ (.dir leakFiles) noOpenFail
        (fun _ => .resp 200 "ok")).2).opened :=
  ⟨rfl, rfl, rfl, by decide⟩

/-- C3 (amended): every file handle opened for a batch is closed on
both the success and the failure path of that batch — for an arbitrary
upload target, covering POST exceptions and non-200 responses —
provided every `open` of the upload succeeds and the prepared relative
paths are distinct and none of them is `manifest.json`.  (A file whose
relative path is `manifest.json` loses its `files_dict` entry to the
serialized manifest and its handle is never closed, and an `open` that
raises partway through a batch propagates before any cleanup is
reachable, leaking the batch's earlier handles.) -/
theorem upload_files_closes_handles (url : String) (files : List PreparedFile)
    (openFails : String → Bool) (post : Nat → PostOutcome)
    (hnodup : (files.map (fun f => f.path)).Nodup)
    (hnm : ∀ f ∈ files, f.path ≠ "manifest.json")
    (hopen : ∀ f ∈ files, openFails f.src = false) :
    ((upload_files ⟨some url⟩ (.dir files) openFails post).2).closed
      = ((upload_files ⟨some url⟩ (.dir files) openFails post).2).opened := by
  have hbs_sub : ∀ b ∈ sliceBatches 10 files, ∀ f ∈ b, f ∈ files :=
    fun b hb f hf => (sliceBatches_sublist 10 files b hb).subset hf
  by_cases hurl : truthyUrl (some url) = true
  · have hclose := uploadBatches_closes openFails post (sliceBatches 10 files) 0 0 ⟨[], [], [], []⟩
      (fun b hb f hf => hopen f (hbs_sub b hb f hf))
      (fun b hb => sliceBatches_nodup files hnodup 10 b hb)
      (fun b hb f hf => hnm f (hbs_sub b hb f hf)) rfl
    simp only [upload_files, hurl, Bool.not_true, Bool.false_eq_true, if_false]
    rcases hres : uploadBatches openFails post (sliceBatches 10 files) 0 0 ⟨[], [], [], []⟩
      with ⟨r, tr⟩
    rw [hres] at hclose
    cases r <;> simpa using hclose
  · have hurl' : truthyUrl (some url) = false := by simpa using hurl
    simp [upload_files, hurl']

/-- Witness for the amended closing theorem: the three-file scenario
against an upload target that rejects the batch with a 500. -/
theorem upload_files_closes_handles_witness :
    ((upload_files ⟨some "u"⟩ (.dir demoFiles) noOpenFail (fun _ => .resp 500 "no")).2).closed
      = ((upload_files ⟨some "u"⟩ (.dir demoFiles) noOpenFail
          (fun _ => .resp 500 "no")).2).opened :=
  upload_files_closes_handles "u" demoFiles noOpenFail (fun _ => .resp 500 "no")
    (by decide) (by decide) (by decide)

/-- C4: whenever one of the issued batch POSTs answers a non-2xx HTTP
status (the code in fact rejects anything other than 200), and every
earlier batch was accepted, `upload_files` raises an API error whose
message is `Upload failed:` followed by the raw response body, and no
subsequent batch is attempted: exactly `k + 1` POSTs are issued when
batch `k` fails. -/
theorem upload_files_aborts_on_bad_status (url : String) (files : List PreparedFile)
    (openFails : String → Bool) (post : Nat → PostOutcome) (k s : Nat) (t : String)
    (hurl : url ≠ "")
    (hopen : ∀ f ∈ files, openFails f.src = false)
    (hk : k < (files.length + 10 - 1) / 10)
    (hprev : ∀ i, i < k → ∃ t0, post i = .resp 200 t0)
    (hpost : post k = .resp s t)
    (hbad : ¬ (200 ≤ s ∧ s < 300)) :
    (upload_files ⟨some url⟩ (.dir files) openFails post).1
        = .error (.api ("Upload failed: " ++ t)) ∧
    ((upload_files ⟨some url⟩ (.dir files) openFails post).2).payloads.length = k + 1 := by
  have hs : s ≠ 200 := fun he => hbad (by omega)
  have hbs_sub : ∀ b ∈ sliceBatches 10 files, ∀ f ∈ b, f ∈ files :=
    fun b hb f hf => (sliceBatches_sublist 10 files b hb).subset hf
  obtain ⟨tr', htr1, htr2⟩ :=
    uploadBatches_abort openFails post (sliceBatches 10 files) k 0 0 ⟨[], [], [], []⟩ s t
      (fun b hb f hf => hopen f (hbs_sub b hb f hf))
      (by rwa [sliceBatches_length])
      (fun i hi => by obtain ⟨t0, ht0⟩ := hprev i hi; exact ⟨t0, by simpa using ht0⟩)
      (by simpa using hpost) hs
  have hturl : truthyUrl (some url) = true := by simp [truthyUrl, hurl]
  have hmain : upload_files ⟨some url⟩ (.dir files) openFails post
      = (.error (.api ("Upload failed: " ++ t)), tr') := by
    simp only [upload_files, hturl, Bool.not_true, Bool.false_eq_true, if_false]
    rw [htr1]
  rw [hmain]
  exact ⟨rfl, by simpa using htr2⟩

/-- Witness for the abort theorem: the three-file scenario against an
upload target answering 500 with body `Server Error` on its single
batch. -/
theorem upload_files_aborts_on_bad_status_witness :
    (upload_files ⟨some "u"⟩ (.dir demoFiles) noOpenFail
        (fun _ => .resp 500 "Server Error")).1
      = .error (.api ("Upload failed: " ++ "Server Error")) ∧
    ((upload_files ⟨some "u"⟩ (.dir demoFiles) noOpenFail
        (fun _ => .resp 500 "Server Error")).2).payloads.length = 0 + 1 :=
  upload_files_aborts_on_bad_status "u" demoFiles noOpenFail
    (fun _ => .resp 500 "Server Error") 0 500 "Server Error"
    (by decide) (by decide) (by decide)
    (fun i hi => absurd hi (Nat.not_lt_zero i)) rfl (by decide)

/-- C10: a deployment dict without a truthy `upload_url` makes
`upload_files` raise `No upload URL provided in deployment` before the
local directory is even looked at — the same error results whether the
directory argument is valid or not — and whenever `upload_files`
returns normally, the returned value is `True`. -/
theorem upload_files_no_url_priority (dep : Deployment) (dirArg : LocalDir)
    (openFails : String → Bool) (post : Nat → PostOutcome) :
    (truthyUrl dep.upload_url = false →
      upload_files dep dirArg openFails post
        = (.error (.api "No upload URL provided in deployment"), ⟨[], [], [], []⟩)) ∧
    (∀ b tr, upload_files dep dirArg openFails post = (.ok b, tr) → b = true) := by
  constructor
  · intro h
    simp [upload_files, h]
  · intro b tr h
    by_cases hu : truthyUrl dep.upload_url = true
    · rcases dirArg with _ | files
      · simp [upload_files, hu] at h
      · revert h
        simp only [upload_files, hu, Bool.not_true, Bool.false_eq_true, if_false]
        rcases uploadBatches openFails post (sliceBatches 10 files) 0 0 ⟨[], [], [], []⟩
          with ⟨r, tr2⟩
        cases r with
        | ok u => intro h; cases h; rfl
        | error e => intro h; cases h
    · have hu' : truthyUrl dep.upload_url = false := by simpa using hu
      simp [upload_files, hu'] at h

/-- Witness for the missing-upload-URL theorem: an empty-string URL and
an invalid directory still produce the missing-URL error. -/
theorem upload_files_no_url_priority_witness :
    upload_files ⟨some ""⟩ .missing noOpenFail alwaysOk200
      = (.error (.api "No upload URL provided in deployment"), ⟨[], [], [], []⟩) :=
  (upload_files_no_url_priority ⟨some ""⟩ .missing noOpenFail alwaysOk200).1 rfl

/-! ## Project resolution (`create_deployment`, lines 136-162)

The remote behaviour of the three endpoints (`get_project`,
`create_project`, deployment POST) enters as `Except` parameters whose
error is the raised `CloudflareAPIError` message (the only exception
kind `_make_request` raises).  The result is paired with the ordered
list of API calls issued. -/

/-- A project descriptor as returned by the API helpers. -/
structure ProjectDesc where
  name : String
deriving DecidableEq

/-- A deployment descriptor as returned by the deployment POST. -/
structure DeployDesc where
  id : String
deriving DecidableEq

/-- The API calls `create_deployment` can issue, in issue order. -/
inductive ApiCall where
  | getProject (name : String)
  | createProject (name : String) (branch : String)
  | createDeployment (name : String)
deriving DecidableEq

/-- Embeds `create_deployment` (lines 136-162): with the flag set, try
`get_project`; on ANY `CloudflareAPIError` (the bare
`except CloudflareAPIError:` on line 153) call `create_project` — whose
own failure propagates — then POST the deployment; without the flag,
POST the deployment directly. -/
def create_deployment (project_name : String) (create_if_not_exists : Bool)
    (production_branch : String)
    (lookup : Except String ProjectDesc)
    (createRes : Except String ProjectDesc)
    (depRes : Except String DeployDesc) :
    Except String DeployDesc × List ApiCall :=
  if create_if_not_exists then
    match lookup with
    | .ok _ =>
      (depRes, [.getProject project_name, .createDeployment project_name])
    | .error _ =>
      match createRes with
      | .error e =>
        (.error e, [.getProject project_name,
          .createProject project_name production_branch])
      | .ok _ =>
        (depRes, [.getProject project_name,
          .createProject project_name production_branch,
          .createDeployment project_name])
  else
    (depRes, [.createDeployment project_name])

/-- Tests whether `pat` starts `s` (character lists). -/
def leadsWith : List Char → List Char → Bool
  | _, [] => true
  | [], _ :: _ => false
  | a :: as, b :: bs => (a = b) && leadsWith as bs

/-- Tests whether `pat` occurs inside `s` (character lists). -/
def hasSub : List Char → List Char → Bool
  | [], pat => pat.isEmpty
  | a :: as, pat => leadsWith (a :: as) pat || hasSub as pat

/-- Follows the spec's words, not the source: the spec requires a
"NotFound-flavored error distinguishable from other API failures"; an
error message counts as NotFound-flavored when it mentions "not found"
(case-insensitively).  The source never makes such a distinction. -/
def spec_notFoundFlavored (msg : String) : Bool :=
  hasSub (strLower msg).data "not found".data

/-- C5 counterexample: the bare `except CloudflareAPIError:` catches
every API error, not only NotFound ones.  A lookup failing with an
authentication error — not NotFound-flavored — still triggers a
create-project call, contradicting the claim that lookup failures that
are not NotFound are not treated as missing-project. -/
theorem create_deployment_broad_catch_cex :
    spec_notFoundFlavored "API request failed: Authentication error" = false ∧
    (create_deployment "site" true "main"
        (.error "API request failed: Authentication error")
        (.ok ⟨"site"⟩) (.ok ⟨"dep1"⟩)).2
      = [.getProject "site", .createProject "site" "main", .createDeployment "site"] ∧
    ApiCall.createProject "site" "main" ∈
      (create_deployment "site" true "main"
        (.error "API request failed: Authentication error")
        (.ok ⟨"site"⟩) (.ok ⟨"dep1"⟩)).2 :=
  ⟨by decide, rfl, by decide⟩

/-- C5 (amended): when the create-if-missing flag is set,
`create_deployment` first resolves the project via `get_project`; when
that lookup fails with ANY `CloudflareAPIError` — NotFound-flavored or
not — a create-project call (with the given production branch) is
issued before the deployment-creation call; when the lookup succeeds
the existing project is reused and no create call is issued; a failing
create propagates and suppresses the deployment call; and without the
flag no lookup is made at all. -/
theorem create_deployment_create_iff_lookup_error
    (project_name production_branch : String)
    (lookup : Except String ProjectDesc) (createRes : Except String ProjectDesc)
    (depRes : Except String DeployDesc) :
    (∀ e, lookup = .error e → ∀ pd, createRes = .ok pd →
      create_deployment project_name true production_branch lookup createRes depRes
        = (depRes, [.getProject project_name,
            .createProject project_name production_branch,
            .createDeployment project_name])) ∧
    (∀ e, lookup = .error e → ∀ ce, createRes = .error ce →
      create_deployment project_name true production_branch lookup createRes depRes
        = (.error ce, [.getProject project_name,
            .createProject project_name production_branch])) ∧
    (∀ pd, lookup = .ok pd →
      create_deployment project_name true production_branch lookup createRes depRes
        = (depRes, [.getProject project_name, .createDeployment project_name])) ∧
    create_deployment project_name false production_branch lookup createRes depRes
      = (depRes, [.createDeployment project_name]) := by
  refine ⟨?_, ?_, ?_, ?_⟩
  · intro e he pd hc
    simp [create_deployment, he, hc]
  · intro e he ce hc
    simp [create_deployment, he, hc]
  · intro pd hl
    simp [create_deployment, hl]
  · simp [create_deployment]

/-- Witness for the amended project-resolution theorem: an
authentication-error lookup with a succeeding create call. -/
theorem create_deployment_create_iff_lookup_error_witness :
    create_deployment "site" true "main"
        (.error "API request failed: Authentication error")
        (.ok ⟨"site"⟩) (.ok ⟨"dep1"⟩)
      = (.ok ⟨"dep1"⟩, [.getProject "site", .createProject "site" "main",
          .createDeployment "site"]) :=
  (create_deployment_create_iff_lookup_error "site" "main"
      (.error "API request failed: Authentication error") (.ok ⟨"site"⟩) (.ok ⟨"dep1"⟩)).1
    "API request failed: Authentication error" rfl ⟨"site"⟩ rfl

/-! ## Relative-path preparation (`_prepare_files`, lines 263-266)

`directory.glob("**/*")` enumerates every descendant of the root;
`is_file()` keeps the regular files;
`str(file_path.relative_to(directory))` joins the relative path
components with the platform separator; `.replace("\\", "/")` then
rewrites every backslash character (the replace pattern is a single
character) to a forward slash.  A directory tree enters as the list of
discovered filesystem objects, each carrying its path components
relative to the root. -/

/-- One filesystem object found by the recursive glob: its nonempty
path components relative to the root, and whether it is a regular
file. -/
structure FSEntry where
  components : List String
  isFile : Bool
deriving DecidableEq

/-- Python `str.replace("\\", "/")` on a path's characters: the pattern
is a single character, so each backslash is rewritten to a slash. -/
def replaceBackslash (cs : List Char) : List Char :=
  cs.map (fun c => if c = '\\' then '/' else c)

/-- Embeds `str(file_path.relative_to(directory)).replace("\\", "/")`: join
the relative components with the platform separator `sep`, then rewrite
backslashes. -/
def relPath (sep : Char) (comps : List String) : String :=
  ⟨replaceBackslash (List.intercalate [sep] (comps.map String.data))⟩

/-- The relative upload paths produced by `_prepare_files`: one per
regular file found by the glob, in traversal order; directories
contribute no entry. -/
def prepare_paths (sep : Char) (entries : List FSEntry) : List String :=
  (entries.filter (fun e => e.isFile)).map (fun e => relPath sep e.components)

/-- Follows the spec's words, not the source: the regular files'
relative paths with components joined by forward slashes ("the set of
regular-file paths relative to the root, with path separators
normalized to forward slashes"). -/
def spec_paths (entries : List FSEntry) : List String :=
  (entries.filter (fun e => e.isFile)).map
    (fun e => ⟨List.intercalate ['/'] (e.components.map String.data)⟩)

/-- C6 counterexample: on a platform whose separator is `/`, a regular
file legally named `a\b` (one component containing a literal backslash,
no separator) is reported as `a/b`: the produced path differs from the
file's relative path, which contains no separator to normalize.  The
claimed equality therefore fails on this tree. -/
theorem prepare_paths_backslash_cex :
    prepare_paths '/' [⟨["a\\b"], true⟩] = ["a/b"] ∧
    spec_paths [⟨["a\\b"], true⟩] = ["a\\b"] ∧
    prepare_paths '/' [⟨["a\\b"], true⟩] ≠ spec_paths [⟨["a\\b"], true⟩] :=
  ⟨rfl, rfl, by decide⟩

/-- Mapping a function over an interspersed list maps it over the
separator and every element. -/
theorem mapIntersperse {α β : Type} (g : α → β) (sep : α) :
    ∀ l : List α, (List.intersperse sep l).map g = List.intersperse (g sep) (l.map g)
  | [] => rfl
  | [x] => rfl
  | x :: y :: rest => by
    have ih := mapIntersperse g sep (y :: rest)
    simp only [List.intersperse, List.map_cons] at ih ⊢
    rw [ih]

/-- Mapping a function over an intercalation maps it over the separator
and every piece. -/
theorem map_intercalate {α β : Type} (f : α → β) (sep : List α) :
    ∀ xs : List (List α),
      (List.intercalate sep xs).map f
        = List.intercalate (sep.map f) (xs.map (fun l => l.map f)) := by
  intro xs
  simp only [List.intercalate, List.map_flatten]
  congr 1
  exact mapIntersperse (List.map f) sep xs

/-- Rewriting backslashes does nothing to a backslash-free character
list. -/
theorem replaceBackslash_id (cs : List Char) (h : '\\' ∉ cs) : replaceBackslash cs = cs := by
  induction cs with
  | nil => rfl
  | cons c rest ih =>
    simp only [List.mem_cons] at h
    push_neg at h
    simp only [replaceBackslash, List.map_cons]
    rw [if_neg (fun he => h.1 he.symm)]
    simpa [replaceBackslash] using ih h.2

/-- A joined relative path with backslash-free components, rewritten,
is the forward-slash join of the components, on either platform. -/
theorem relPath_eq (sep : Char) (comps : List String)
    (hsep : sep = '/' ∨ sep = '\\')
    (h : ∀ c ∈ comps, '\\' ∉ c.data) :
    relPath sep comps = ⟨List.intercalate ['/'] (comps.map String.data)⟩ := by
  unfold relPath replaceBackslash
  congr 1
  rw [map_intercalate]
  have hsep2 : [sep].map (fun c => if c = '\\' then '/' else c) = ['/'] := by
    rcases hsep with rfl | rfl <;> simp
  rw [hsep2]
  congr 1
  rw [List.map_map]
  apply List.map_congr_left
  intro c hc
  exact replaceBackslash_id c.data (h c hc)

/-- C6 (amended): for every directory tree none of whose entry-name
components contains a literal backslash character (automatic on a
platform whose separator is the backslash, a genuine restriction on
POSIX), and on either platform separator, the relative upload paths
produced equal exactly the regular files' relative paths with
components joined by forward slashes; directories contribute no
entry. -/
theorem prepare_paths_normalized (sep : Char) (entries : List FSEntry)
    (hsep : sep = '/' ∨ sep = '\\')
    (hns : ∀ e ∈ entries, ∀ c ∈ e.components, '\\' ∉ c.data) :
    prepare_paths sep entries = spec_paths entries := by
  unfold prepare_paths spec_paths
  apply List.map_congr_left
  intro e he
  exact relPath_eq sep e.components hsep
    (hns e (List.mem_of_mem_filter he))

/-- A two-platform demonstration tree: a directory `assets` with one
file inside it. -/
def demoTree : List FSEntry :=
  [⟨["assets"], false⟩, ⟨["assets", "app.js"], true⟩, ⟨["index.html"], true⟩]

/-- Witness for the normalization theorem: the demonstration tree on a
backslash-separator platform. -/
theorem prepare_paths_normalized_witness :
    prepare_paths '\\' demoTree = spec_paths demoTree :=
  prepare_paths_normalized '\\' demoTree (Or.inr rfl) (by decide)

/-- C7: content-type classification is a deterministic function of the
file name's extension, case-insensitive on it: any two names whose
lowercased extensions agree classify identically; `IMAGE.PNG` and
`image.png` both classify as `image/png`; and every name whose
lowercased extension is not a key of the fixed table — such as `.xyz` —
classifies as the generic binary type `application/octet-stream`. -/
theorem content_type_classification :
    (∀ n₁ n₂ : String, strLower (pySuffix n₁) = strLower (pySuffix n₂) →
      content_type_of n₁ = content_type_of n₂) ∧
    (content_type_of "IMAGE.PNG" = "image/png" ∧ content_type_of "image.png" = "image/png") ∧
    (∀ n : String, strLower (pySuffix n) ∉ content_types.map Prod.fst →
      content_type_of n = default_content_type) := by
  refine ⟨?_, ⟨by decide, by decide⟩, ?_⟩
  · intro n₁ n₂ h
    unfold content_type_of
    rw [h]
  · intro n h
    unfold content_type_of dictGetD
    rcases hfind : content_types.find? (fun p => p.1 = strLower (pySuffix n)) with _ | p
    · rw [hfind]
    · have h1 := List.find?_some hfind
      have h2 : p ∈ content_types := List.mem_of_find?_eq_some hfind
      exact absurd (List.mem_map.mpr ⟨p, h2, of_decide_eq_true h1⟩) h

/-- Witness for the classification theorem: `photo.JPG` and `photo.jpg`
classify identically, and the unknown extension `.xyz` falls back to
the generic binary type. -/
theorem content_type_classification_witness :
    content_type_of "photo.JPG" = content_type_of "photo.jpg" ∧
    content_type_of "file.xyz" = default_content_type :=
  ⟨content_type_classification.1 "photo.JPG" "photo.jpg" (by decide),
   content_type_classification.2.2 "file.xyz" (by decide)⟩

/-- C8: a parsed response body whose boolean `success` field is `false`
or absent makes the transport raise an API error whose message is
`API request failed:` followed by the `"; "`-joined `message` fields of
the `errors` entries — substituting `Unknown error` for each entry with
no message — while a body that is not valid JSON raises
`Invalid JSON response:` carrying the raw text instead. -/
theorem make_request_error_handling :
    (∀ b : ApiBody, (b.success = some false ∨ b.success = none) →
      make_request (.body b)
        = .error ("API request failed: " ++ String.intercalate "; "
            ((b.errors.getD []).map (fun e => e.message.getD "Unknown error")))) ∧
    (∀ t : String, make_request (.unparseable t) = .error ("Invalid JSON response: " ++ t)) := by
  constructor
  · intro b hb
    have hs : b.success.getD false = false := by rcases hb with h | h <;> simp [h]
    simp [make_request, hs, joinedErrors]
  · intro t
    rfl

/-- Witness for the transport error theorem: a failing body with one
message-carrying entry and one message-less entry. -/
theorem make_request_error_handling_witness :
    make_request (.body ⟨some false, some [⟨some "Invalid token"⟩, ⟨none⟩]⟩)
      = .error ("API request failed: " ++ String.intercalate "; "
          (((some [ApiErrEntry.mk (some "Invalid token"), ⟨none⟩] : Option (List ApiErrEntry)).getD
            []).map (fun e => e.message.getD "Unknown error"))) :=
  make_request_error_handling.1 ⟨some false, some [⟨some "Invalid token"⟩, ⟨none⟩]⟩ (Or.inl rfl)
